import Mathlib

/-!
Verification of the record-to-prediction pipeline of the NHIS
fraud-detection dashboard (`app.py`).

The pipeline is embedded shallowly:
* pandas tables become lists of named columns and rows of cells;
* calendar dates are modelled by their day number (an integer), so that
  pandas `(d2 - d1).dt.days` is plain integer subtraction, and a cell
  whose raw text does not parse as a date is modelled as already coerced
  to `NaT` (the `nan` cell), mirroring `pd.to_datetime(errors='coerce')`;
* the frozen model artifacts (classifier, scaler, diagnosis encoder,
  fraud label encoder) are explicit parameters of the pipeline;
* the sqlite database and the csv files under `data/` and `results/`
  become an explicit store state threaded through the upload handler.
-/

namespace NHIS

attribute [local semireducible] Rat.mul Rat.inv Rat.add Rat.sub

instance instDecEqExcept {ε α : Type} [DecidableEq ε] [DecidableEq α] :
    DecidableEq (Except ε α) := fun x y =>
  match x, y with
  | .ok a, .ok b =>
    if h : a = b then isTrue (by rw [h]) else isFalse (fun hc => h (Except.ok.inj hc))
  | .error e, .error f =>
    if h : e = f then isTrue (by rw [h]) else isFalse (fun hc => h (Except.error.inj hc))
  | .ok _, .error _ => isFalse (fun hc => Except.noConfusion hc)
  | .error _, .ok _ => isFalse (fun hc => Except.noConfusion hc)

/-- A cell of a pandas table: a string, a numeric value (modelled by
`ℚ`), a parsed calendar date (its day number), or a missing value
(`NaN` / `NaT`). -/
inductive Val where
  | str (s : String)
  | num (q : ℚ)
  | date (day : ℤ)
  | nan
  deriving DecidableEq, Repr

/-- A pandas `DataFrame`: named columns and rows of cells. -/
structure Table where
  cols : List String
  rows : List (List Val)
  deriving DecidableEq, Repr

instance : Inhabited Table := ⟨⟨[], []⟩⟩

/-- The cell of row `r` under the first column named `n` (`nan` when the
column is missing or the row is short). -/
def cellGet : List String → List Val → String → Val
  | c :: cs, v :: vs, n => if c = n then v else cellGet cs vs n
  | _, _, _ => .nan

/-- Replace the cell of row `r` under the first column named `n`. -/
def cellSet : List String → List Val → String → Val → List Val
  | c :: cs, v :: vs, n, w => if c = n then w :: vs else v :: cellSet cs vs n w
  | _, r, _, _ => r

/-- Remove from row `r` the cells lying under the columns named in `ns`. -/
def cellsDrop : List String → List Val → List String → List Val
  | c :: cs, v :: vs, ns =>
      if ns.contains c then cellsDrop cs vs ns else v :: cellsDrop cs vs ns
  | _, r, _ => r

/-- Number of rows, `len(df)`. -/
def Table.nRows (t : Table) : Nat := t.rows.length

/-- Column selection `df[n]`, as the list of its cells.  (Validated
inputs always have the columns the pipeline reads; a missing column
shows up as a column of `nan`s.) -/
def getColD (t : Table) (n : String) : List Val :=
  t.rows.map (fun r => cellGet t.cols r n)

/-- Column assignment `df[n] = vs`: replaces the column when present,
otherwise appends it as the last column (pandas semantics). -/
def setCol (t : Table) (n : String) (vs : List Val) : Table :=
  if t.cols.contains n then
    ⟨t.cols, List.zipWith (fun r v => cellSet t.cols r n v) t.rows vs⟩
  else
    ⟨t.cols ++ [n], List.zipWith (fun r v => r ++ [v]) t.rows vs⟩

/-- `df[n] = df[n].map f` and friends: pointwise update of one column. -/
def mapCol (t : Table) (n : String) (f : Val → Val) : Table :=
  if t.cols.contains n then
    ⟨t.cols, t.rows.map (fun r => cellSet t.cols r n (f (cellGet t.cols r n)))⟩
  else t

/-- `df.drop(ns, axis=1, errors='ignore')`. -/
def dropCols (t : Table) (ns : List String) : Table :=
  ⟨t.cols.filter (fun c => !ns.contains c), t.rows.map (fun r => cellsDrop t.cols r ns)⟩

/-- Rectangularity: every row has exactly one cell per column.  Every
actual `DataFrame` satisfies this. -/
def Table.WF (t : Table) : Prop := ∀ r ∈ t.rows, r.length = t.cols.length

instance (t : Table) : Decidable t.WF := by
  unfold Table.WF
  infer_instance

/-- `pd.to_datetime(col, errors='coerce')` on one cell: a parseable date
(modelled as an already-parsed `date` cell) is kept, anything else
coerces to `NaT`. -/
def toDatetimeCell : Val → Val
  | .date d => .date d
  | _ => .nan

/-- Is the cell a missing value (`isnull`)? -/
def isNan : Val → Bool
  | .nan => true
  | _ => false

/-- Is the cell a parsed date? -/
def isDate : Val → Bool
  | .date _ => true
  | _ => false

/-- The pipeline errors raised inside `preprocess_data`: the explicit
`ValueError` for bad dates (spec name `DataFormatError`) and the
encoder failure for unseen diagnosis categories (spec name
`EncodingError`), carrying the offending values. -/
inductive PErr where
  | dataFormatError
  | encodingError (unseen : List Val)
  deriving DecidableEq, Repr

/-- The null check of `preprocess_data` on the converted date columns. -/
def hasNullDates (t : Table) : Bool :=
  ((getColD t "Date Admitted").any isNan) || ((getColD t "Date Discharged").any isNan)

/-- One entry of `(df['Date Discharged'] - df['Date Admitted']).dt.days`. -/
def dateSub : Val → Val → Val
  | .date b, .date a => .num ((b - a : ℤ) : ℚ)
  | _, _ => .nan

/-- The computed `Length of Stay` column. -/
def losColumn (t : Table) : List Val :=
  List.zipWith dateSub (getColD t "Date Discharged") (getColD t "Date Admitted")

/-- `Series.map({'Male': 1, 'Female': 0})` on one cell: any other value
becomes `NaN` (pandas `map` has no error path). -/
def genderMap : Val → Val
  | .str s => if s = "Male" then .num 1 else if s = "Female" then .num 0 else .nan
  | _ => .nan

/-- Modelled from the spec: the diagnosis encoder artifact
(`models/diagnosis_encoder.pkl`) is an external file, not code under
the sources; per the spec it is a fixed categorical vocabulary learned
at training time. -/
structure DiagnosisEncoder where
  classes : List String
  deriving DecidableEq, Repr

/-- Does the fixed vocabulary know this cell? -/
def diagSeen (enc : DiagnosisEncoder) : Val → Bool
  | .str s => enc.classes.contains s
  | _ => false

/-- Modelled from the spec: `diagnosis_encoder.transform(col)`.  A value
outside the trained vocabulary fails the whole column with an error
naming every unseen value (no default bucket); otherwise every value is
replaced by its integer code. -/
def diagTransform (enc : DiagnosisEncoder) (col : List Val) : Except PErr (List Val) :=
  let unseen := col.filter (fun v => !diagSeen enc v)
  if unseen.isEmpty then
    .ok (col.map (fun v => match v with
      | .str s => .num ((enc.classes.indexOf s : ℕ) : ℚ)
      | _ => .nan))
  else .error (.encodingError unseen)

/-- The frozen `StandardScaler`: per-column `(mean, scale)` pairs fit at
training time. -/
structure Scaler where
  ageMean : ℚ
  ageScale : ℚ
  billedMean : ℚ
  billedScale : ℚ
  losMean : ℚ
  losScale : ℚ
  deriving DecidableEq, Repr

/-- `(value - mean) / scale` on one cell; missing stays missing. -/
def scaleVal (m s : ℚ) : Val → Val
  | .num q => .num ((q - m) / s)
  | _ => .nan

/-- `df[num_cols] = scaler.transform(df[num_cols])` with
`num_cols = ['Age', 'Amount Billed', 'Length of Stay']`. -/
def scaleNumCols (sc : Scaler) (t : Table) : Table :=
  mapCol (mapCol (mapCol t "Age" (scaleVal sc.ageMean sc.ageScale))
      "Amount Billed" (scaleVal sc.billedMean sc.billedScale))
    "Length of Stay" (scaleVal sc.losMean sc.losScale)

/-- Modelled from the spec: the fraud label encoder artifact
(`models/fraud_encoder.pkl`), the fixed mapping between class indices
and human-readable labels. -/
structure FraudEncoder where
  classes : List String
  deriving DecidableEq, Repr

/-- The frozen artifacts loaded once by `load_artifacts`.  Modelled from
the spec: the classifier artifact itself is external; per the spec it
deterministically produces one encoded label per feature row. -/
structure Env where
  model : List Val → Nat
  scaler : Scaler
  diagnosis_encoder : DiagnosisEncoder
  fraud_encoder : FraudEncoder

/-- `preprocess_data(df)` (app.py lines 106-137): convert the date
columns, reject the batch when a date is missing or unparsable, compute
the length of stay, drop the identifier and raw date columns, encode
gender and diagnosis, and scale the numeric columns. -/
def preprocess_data (env : Env) (df : Table) : Except PErr Table :=
  let t1 := mapCol df "Date Admitted" toDatetimeCell
  let t2 := mapCol t1 "Date Discharged" toDatetimeCell
  if hasNullDates t2 then .error .dataFormatError
  else
    let t3 := setCol t2 "Length of Stay" (losColumn t2)
    let t4 := dropCols t3 ["Patient ID", "Date Admitted", "Date Discharged"]
    let t5 := mapCol t4 "Gender" genderMap
    match diagTransform env.diagnosis_encoder (getColD t5 "Diagnosis") with
    | .error e => .error e
    | .ok dvals => .ok (scaleNumCols env.scaler (setCol t5 "Diagnosis" dvals))

/-- `fraud_encoder.inverse_transform(y_pred)`. -/
def decodeLabels (env : Env) (codes : List Nat) : List String :=
  codes.map (fun i => env.fraud_encoder.classes.getD i "")

/-- `make_predictions(df)` (app.py lines 139-142). -/
def make_predictions (env : Env) (df : Table) : Except PErr (List String) :=
  (preprocess_data env df).map (fun p => decodeLabels env (p.rows.map env.model))

/-- The Python object store: tables indexed by object identity.  Used to
state that `preprocess_data` mutates only the copy it allocates. -/
abbrev Heap := List Table

/-- An in-place mutation of the object at index `i`. -/
def Heap.upd (hp : Heap) (i : Nat) (f : Table → Table) : Heap :=
  hp.set i (f (hp.getD i default))

/-- `preprocess_data` at the level of Python objects: `df = df.copy()`
allocates a fresh object and every subsequent statement mutates only
that copy; the result is the index of the processed object. -/
def preprocess_data_heap (env : Env) (hp : Heap) (dfId : Nat) : Heap × Except PErr Nat :=
  let w := hp.length
  let hp := hp ++ [hp.getD dfId default]
  let hp := hp.upd w (fun t => mapCol t "Date Admitted" toDatetimeCell)
  let hp := hp.upd w (fun t => mapCol t "Date Discharged" toDatetimeCell)
  if hasNullDates (hp.getD w default) then (hp, .error .dataFormatError)
  else
    let hp := hp.upd w (fun t => setCol t "Length of Stay" (losColumn t))
    let hp := hp.upd w (fun t => dropCols t ["Patient ID", "Date Admitted", "Date Discharged"])
    let hp := hp.upd w (fun t => mapCol t "Gender" genderMap)
    match diagTransform env.diagnosis_encoder (getColD (hp.getD w default) "Diagnosis") with
    | .error e => (hp, .error e)
    | .ok dvals =>
      let hp := hp.upd w (fun t => setCol t "Diagnosis" dvals)
      let hp := hp.upd w (fun t => scaleNumCols env.scaler t)
      (hp, .ok w)

/-- `make_predictions` at the level of Python objects: the caller's
table is passed by reference into `preprocess_data`. -/
def make_predictions_heap (env : Env) (hp : Heap) (dfId : Nat) :
    Heap × Except PErr (List String) :=
  match preprocess_data_heap env hp dfId with
  | (hp, .error e) => (hp, .error e)
  | (hp, .ok w) => (hp, .ok (decodeLabels env ((hp.getD w default).rows.map env.model)))

/-- The required upload columns (app.py lines 289-292). -/
def required_columns : List String :=
  ["Patient ID", "Date Admitted", "Date Discharged", "Age", "Gender", "Diagnosis", "Amount Billed"]

/-- One row of the `datasets` table; the paths are modelled as indices
into the stored file lists. -/
structure DatasetRow where
  hospital_id : Nat
  data_path : Nat
  predictions_path : Nat
  deriving DecidableEq, Repr

/-- One row of the `predictions` summary table. -/
structure SummaryRow where
  dataset_id : Nat
  total_cases : Nat
  fraud_count : Nat
  non_fraud_count : Nat
  deriving DecidableEq, Repr

/-- The persistent store: the csv files under `data/` and `results/`
and the two sqlite tables the upload handler writes. -/
structure StoreState where
  dataFiles : List Table
  predFiles : List Table
  datasets : List DatasetRow
  predictions : List SummaryRow
  deriving DecidableEq, Repr

/-- Outcome of the upload handler: success, or an error caught by the
surrounding `except` block, each carrying the store left behind. -/
inductive UploadResult where
  | ok (st : StoreState)
  | err (st : StoreState)
  deriving DecidableEq, Repr

/-- `(df_predicted["Prediction"] != "No Fraud").sum()`. -/
def countFraudCol (col : List Val) : Nat :=
  (col.filter (fun v => v != Val.str "No Fraud")).length

/-- `df_predicted = df_original.copy(); df_predicted["Prediction"] = predictions`. -/
def outputArtifact (df : Table) (preds : List String) : Table :=
  setCol df "Prediction" (preds.map Val.str)

/-- The classify-and-persist block of `hospital_dashboard`
(app.py lines 300-334).  `failAt` injects a storage failure right
before the given effect (`0` = raw-data csv write, `1` = predictions
csv write, `2` = `datasets` insert, `3` = summary insert); `none` means
every effect succeeds.  Effects already performed stay visible: the csv
writes are durable at once, and the inserts are visible on the app's
single shared connection (the final `conn.commit` is not a revert
point for them). -/
def runUpload (env : Env) (failAt : Option Nat) (st : StoreState) (hid : Nat)
    (df : Table) : UploadResult :=
  match make_predictions env df with
  | .error _ => .err st
  | .ok preds =>
    let df_predicted := outputArtifact df preds
    let fraud_count := countFraudCol (getColD df_predicted "Prediction")
    let total_count := df_predicted.nRows
    if failAt = some 0 then .err st else
    let st1 : StoreState := { st with dataFiles := st.dataFiles ++ [df] }
    if failAt = some 1 then .err st1 else
    let st2 : StoreState := { st1 with predFiles := st1.predFiles ++ [df_predicted] }
    if failAt = some 2 then .err st2 else
    let st3 : StoreState :=
      { st2 with datasets :=
          st2.datasets ++ [⟨hid, st.dataFiles.length, st.predFiles.length⟩] }
    if failAt = some 3 then .err st3 else
    .ok { st3 with predictions :=
          st3.predictions ++ [⟨st2.datasets.length, total_count, fraud_count,
            total_count - fraud_count⟩] }

/-- Outcome of the whole upload tab: the missing-columns check either
blocks the run with the `Missing columns` message (naming them all), or
lets the pipeline run. -/
inductive UploadOutcome where
  | schemaErr (missing : List String) (st : StoreState)
  | ran (r : UploadResult)
  deriving DecidableEq, Repr

/-- The upload tab (app.py lines 286-334): compute the missing required
columns; when any is missing report them and stop, otherwise run the
pipeline. -/
def uploadFlow (env : Env) (failAt : Option Nat) (st : StoreState) (hid : Nat)
    (df : Table) : UploadOutcome :=
  let missing := required_columns.filter (fun c => !df.cols.contains c)
  if missing.isEmpty then .ran (runUpload env failAt st hid df)
  else .schemaErr missing st

/-- A batch summary as displayed and persisted. -/
structure Summary where
  total : Nat
  fraud : Nat
  nonFraud : Nat
  deriving DecidableEq, Repr

/-- Fraud count over a list of prediction labels. -/
def fraudCount (labels : List String) : Nat :=
  (labels.filter (fun l => l != "No Fraud")).length

/-- The summary computed from a list of prediction labels
(app.py lines 308-310 and 333). -/
def summaryOf (labels : List String) : Summary :=
  ⟨labels.length, fraudCount labels, labels.length - fraudCount labels⟩

/-- The national aggregation of `admin_dashboard` (app.py lines
509-547): concatenate the prediction columns of every stored batch and
recompute the summary. -/
def nationalAgg (batches : List (List String)) : Summary :=
  summaryOf batches.flatten

/-- `value_counts()` over the combined prediction column: one
`(label, count)` pair per distinct label. -/
def breakdown (labels : List String) : List (String × Nat) :=
  labels.dedup.map (fun l => (l, labels.count l))

/-- A value read back from sqlite: an integer, a legacy raw byte
sequence from an older schema, or NULL. -/
inductive DBVal where
  | int (n : ℤ)
  | bytes (bs : List ℕ)
  | null
  deriving DecidableEq, Repr

/-- `int.from_bytes(bs, byteorder='little')` (unsigned). -/
def fromBytesLE (bs : List ℕ) : ℕ := Nat.ofDigits 256 bs

/-- `to_int_if_bytes` (app.py lines 98-104). -/
def to_int_if_bytes : DBVal → ℤ
  | .bytes bs => (fromBytesLE bs : ℕ)
  | .null => 0
  | .int n => n

/-- The retrieval path for one stored summary (app.py lines 373-375):
each of the three counts is normalised through `to_int_if_bytes`. -/
def readSummaryCounts (total fraud nonFraud : DBVal) : ℤ × ℤ × ℤ :=
  (to_int_if_bytes total, to_int_if_bytes fraud, to_int_if_bytes nonFraud)

/-- A concrete artifact bundle for evaluating the pipeline: identity
scaler, a two-word diagnosis vocabulary, two fraud labels, and a
classifier that flags every row whose first feature (the scaled age) is
not `30`. -/
def testEnv : Env where
  model := fun r => match r with
    | .num a :: _ => if a = 30 then 1 else 0
    | _ => 0
  scaler := ⟨0, 1, 0, 1, 0, 1⟩
  diagnosis_encoder := ⟨["Flu", "Malaria"]⟩
  fraud_encoder := ⟨["Billing Fraud", "No Fraud"]⟩

/-- A three-row valid upload; under `testEnv` its rows are labelled
`["No Fraud", "Billing Fraud", "No Fraud"]`. -/
def testTable : Table where
  cols := ["Patient ID", "Date Admitted", "Date Discharged", "Age", "Gender",
    "Diagnosis", "Amount Billed"]
  rows :=
    [[.str "P1", .date 1, .date 3, .num 30, .str "Male", .str "Flu", .num 100],
     [.str "P2", .date 1, .date 5, .num 40, .str "Female", .str "Malaria", .num 250],
     [.str "P3", .date 2, .date 2, .num 30, .str "Male", .str "Flu", .num 80]]

/-- A one-row upload whose discharge date (day 5) is earlier than its
admission date (day 10). -/
def negLosTable : Table where
  cols := ["Patient ID", "Date Admitted", "Date Discharged", "Age", "Gender",
    "Diagnosis", "Amount Billed"]
  rows := [[.str "P9", .date 10, .date 5, .num 25, .str "Female", .str "Flu", .num 50]]

/-- A one-row upload whose gender value is neither `Male` nor `Female`. -/
def otherGenderTable : Table where
  cols := ["Patient ID", "Date Admitted", "Date Discharged", "Age", "Gender",
    "Diagnosis", "Amount Billed"]
  rows := [[.str "P8", .date 1, .date 2, .num 33, .str "Other", .str "Flu", .num 75]]

/-- A one-row upload whose diagnosis value is outside the vocabulary of
`testEnv`. -/
def unknownDiagTable : Table where
  cols := ["Patient ID", "Date Admitted", "Date Discharged", "Age", "Gender",
    "Diagnosis", "Amount Billed"]
  rows := [[.str "P7", .date 1, .date 2, .num 20, .str "Male", .str "Scurvy", .num 60]]

/-- A one-row upload that already carries a column named `Prediction`
(an extra column beyond the required ones). -/
def predColTable : Table where
  cols := ["Patient ID", "Date Admitted", "Date Discharged", "Age", "Gender",
    "Diagnosis", "Amount Billed", "Prediction"]
  rows := [[.str "P6", .date 1, .date 2, .num 30, .str "Male", .str "Flu", .num 90,
    .str "KEEP-ME"]]

/-- A one-row upload with an unparsable admission date. -/
def badDateTable : Table where
  cols := ["Patient ID", "Date Admitted", "Date Discharged", "Age", "Gender",
    "Diagnosis", "Amount Billed"]
  rows := [[.str "P5", .str "not-a-date", .date 2, .num 20, .str "Male", .str "Flu", .num 60]]

/-- An upload missing the `Diagnosis` column. -/
def noDiagColTable : Table where
  cols := ["Patient ID", "Date Admitted", "Date Discharged", "Age", "Gender", "Amount Billed"]
  rows := [[.str "P4", .date 1, .date 2, .num 20, .str "Male", .num 60]]

/-- The empty store. -/
def emptyStore : StoreState := ⟨[], [], [], []⟩

/-- The labels `testEnv` assigns to the rows of `testTable`. -/
def testLabels : List String := ["No Fraud", "Billing Fraud", "No Fraud"]

/-- The store left behind by a successful upload of `testTable` into the
empty store by hospital 1. -/
def stAfterOk : StoreState :=
  ⟨[testTable], [outputArtifact testTable testLabels], [⟨1, 0, 0⟩], [⟨0, 3, 1, 2⟩]⟩

/-- The store left behind when the summary insert fails after the csv
writes and the datasets insert. -/
def stPartial3 : StoreState :=
  ⟨[testTable], [outputArtifact testTable testLabels], [⟨1, 0, 0⟩], []⟩

/-- A batch of labels with summary (10, 2, 8). -/
def natBatchA : List String :=
  List.replicate 2 "Billing Fraud" ++ List.replicate 8 "No Fraud"

/-- A batch of labels with summary (5, 1, 4). -/
def natBatchB : List String := "Ghost Patient" :: List.replicate 4 "No Fraud"

/-! ### Lemmas about the table primitives -/

theorem cellGet_nil_row (cols : List String) (n : String) :
    cellGet cols ([] : List Val) n = .nan := by
  cases cols <;> rfl

theorem cellGet_not_mem (cols : List String) (r : List Val) (n : String)
    (h : n ∉ cols) : cellGet cols r n = .nan := by
  induction cols generalizing r with
  | nil => cases r <;> rfl
  | cons c cs ih =>
    cases r with
    | nil => rfl
    | cons v vs =>
      simp only [List.mem_cons, not_or] at h
      have hc : c ≠ n := fun hcc => h.1 hcc.symm
      simp [cellGet, hc, ih _ h.2]

theorem cellSet_length (cols : List String) (r : List Val) (n : String) (w : Val) :
    (cellSet cols r n w).length = r.length := by
  induction cols generalizing r with
  | nil => rfl
  | cons c cs ih =>
    cases r with
    | nil => rfl
    | cons v vs => by_cases h : c = n <;> simp [cellSet, h, ih]

theorem cellGet_cellSet_self (cols : List String) (r : List Val) (n : String) (w : Val)
    (hmem : n ∈ cols) (hlen : r.length = cols.length) :
    cellGet cols (cellSet cols r n w) n = w := by
  induction cols generalizing r with
  | nil => simp at hmem
  | cons c cs ih =>
    cases r with
    | nil => simp at hlen
    | cons v vs =>
      by_cases h : c = n
      · simp [cellSet, cellGet, h]
      · have hmem2 : n ∈ cs := by
          rcases List.mem_cons.mp hmem with h1 | h1
          · exact absurd h1.symm h
          · exact h1
        simp [cellSet, cellGet, h, ih _ hmem2 (by simpa using hlen)]

theorem cellGet_cellSet_ne (cols : List String) (r : List Val) (n m : String) (w : Val)
    (h : n ≠ m) : cellGet cols (cellSet cols r m w) n = cellGet cols r n := by
  induction cols generalizing r with
  | nil => rfl
  | cons c cs ih =>
    cases r with
    | nil => rfl
    | cons v vs =>
      by_cases hc : c = m
      · subst hc
        simp [cellSet, cellGet, Ne.symm h]
      · by_cases hcn : c = n
        · subst hcn
          simp [cellSet, cellGet, hc]
        · simp [cellSet, cellGet, hc, hcn, ih]

theorem cellGet_append_ne (cols : List String) (r : List Val) (n m : String) (v : Val)
    (hlen : r.length = cols.length) (h : n ≠ m) :
    cellGet (cols ++ [m]) (r ++ [v]) n = cellGet cols r n := by
  induction cols generalizing r with
  | nil =>
    cases r with
    | nil => simp [cellGet, Ne.symm h, cellGet_nil_row]
    | cons a as => simp at hlen
  | cons c cs ih =>
    cases r with
    | nil => simp at hlen
    | cons a as =>
      by_cases hc : c = n <;>
        simp [cellGet, hc, ih _ (by simpa using hlen)]

theorem cellGet_append_self (cols : List String) (r : List Val) (m : String) (v : Val)
    (hlen : r.length = cols.length) (hm : m ∉ cols) :
    cellGet (cols ++ [m]) (r ++ [v]) m = v := by
  induction cols generalizing r with
  | nil =>
    cases r with
    | nil => simp [cellGet]
    | cons a as => simp at hlen
  | cons c cs ih =>
    cases r with
    | nil => simp at hlen
    | cons a as =>
      simp only [List.mem_cons, not_or] at hm
      have hc : c ≠ m := fun hcc => hm.1 hcc.symm
      simp [cellGet, hc, ih _ (by simpa using hlen) hm.2]

theorem cellsDrop_cellGet (cols : List String) (r : List Val) (ns : List String) (n : String)
    (hnm : n ∉ ns) :
    cellGet (cols.filter (fun c => !ns.contains c)) (cellsDrop cols r ns) n
      = cellGet cols r n := by
  induction cols generalizing r with
  | nil => cases r <;> rfl
  | cons c cs ih =>
    cases r with
    | nil =>
      simp [cellsDrop, cellGet_nil_row]
    | cons v vs =>
      by_cases hcm : c ∈ ns
      · have hcn : c ≠ n := fun hcc => hnm (hcc ▸ hcm)
        have h1 : cellsDrop (c :: cs) (v :: vs) ns = cellsDrop cs vs ns := by
          simp [cellsDrop, hcm]
        have h2 : List.filter (fun x => !ns.contains x) (c :: cs)
            = List.filter (fun x => !ns.contains x) cs := by
          simp [List.filter_cons, hcm]
        have h3 : cellGet (c :: cs) (v :: vs) n = cellGet cs vs n := by
          simp [cellGet, hcn]
        rw [h1, h2, h3]
        exact ih vs
      · have h1 : cellsDrop (c :: cs) (v :: vs) ns = v :: cellsDrop cs vs ns := by
          simp [cellsDrop, hcm]
        have h2 : List.filter (fun x => !ns.contains x) (c :: cs)
            = c :: List.filter (fun x => !ns.contains x) cs := by
          simp [List.filter_cons, hcm]
        rw [h1, h2]
        by_cases hcn : c = n
        · simp [cellGet, hcn]
        · simp only [cellGet, if_neg hcn]
          exact ih vs

theorem cellsDrop_length (cols : List String) (r : List Val) (ns : List String)
    (hlen : r.length = cols.length) :
    (cellsDrop cols r ns).length = (cols.filter (fun c => !ns.contains c)).length := by
  induction cols generalizing r with
  | nil =>
    cases r with
    | nil => rfl
    | cons a as => simp at hlen
  | cons c cs ih =>
    cases r with
    | nil => simp at hlen
    | cons v vs =>
      by_cases hcm : c ∈ ns
      · have h1 : cellsDrop (c :: cs) (v :: vs) ns = cellsDrop cs vs ns := by
          simp [cellsDrop, hcm]
        have h2 : List.filter (fun x => !ns.contains x) (c :: cs)
            = List.filter (fun x => !ns.contains x) cs := by
          simp [List.filter_cons, hcm]
        rw [h1, h2]
        exact ih _ (by simpa using hlen)
      · have h1 : cellsDrop (c :: cs) (v :: vs) ns = v :: cellsDrop cs vs ns := by
          simp [cellsDrop, hcm]
        have h2 : List.filter (fun x => !ns.contains x) (c :: cs)
            = c :: List.filter (fun x => !ns.contains x) cs := by
          simp [List.filter_cons, hcm]
        rw [h1, h2]
        simp [ih _ (by simpa using hlen)]

theorem mem_zipWith {α β γ : Type} {x : γ} {f : α → β → γ} {as : List α} {bs : List β}
    (h : x ∈ List.zipWith f as bs) : ∃ a b, a ∈ as ∧ b ∈ bs ∧ f a b = x := by
  induction as generalizing bs with
  | nil => simp at h
  | cons a as ih =>
    cases bs with
    | nil => simp at h
    | cons b bs =>
      rcases List.mem_cons.mp h with h1 | h1
      · exact ⟨a, b, by simp, by simp, h1.symm⟩
      · obtain ⟨a1, b1, ha, hb, hx⟩ := ih h1
        exact ⟨a1, b1, by simp [ha], by simp [hb], hx⟩

theorem getColD_length (t : Table) (n : String) : (getColD t n).length = t.nRows := by
  simp [getColD, Table.nRows]

theorem cols_mapCol (t : Table) (n : String) (f : Val → Val) :
    (mapCol t n f).cols = t.cols := by
  unfold mapCol
  split <;> rfl

theorem nRows_mapCol (t : Table) (n : String) (f : Val → Val) :
    (mapCol t n f).nRows = t.nRows := by
  unfold mapCol
  split <;> simp [Table.nRows]

theorem nRows_setCol (t : Table) (n : String) (vs : List Val)
    (hlen : vs.length = t.nRows) : (setCol t n vs).nRows = t.nRows := by
  unfold setCol
  unfold Table.nRows at *
  split <;> simp [hlen]

theorem nRows_dropCols (t : Table) (ns : List String) :
    (dropCols t ns).nRows = t.nRows := by
  simp [dropCols, Table.nRows]

theorem WF_mapCol (t : Table) (n : String) (f : Val → Val) (h : t.WF) :
    (mapCol t n f).WF := by
  unfold Table.WF at *
  unfold mapCol
  split
  · intro r hr
    simp only [List.mem_map] at hr
    obtain ⟨r0, hr0, rfl⟩ := hr
    simp [cellSet_length, h r0 hr0]
  · exact h

theorem WF_setCol (t : Table) (n : String) (vs : List Val) (h : t.WF)
    (hlen : vs.length = t.nRows) : (setCol t n vs).WF := by
  unfold Table.WF at *
  unfold setCol
  split
  · intro r hr
    obtain ⟨r0, v0, hr0, _, rfl⟩ := mem_zipWith hr
    simp [cellSet_length, h r0 hr0]
  · intro r hr
    obtain ⟨r0, v0, hr0, _, rfl⟩ := mem_zipWith hr
    simp [h r0 hr0]

theorem WF_dropCols (t : Table) (ns : List String) (h : t.WF) :
    (dropCols t ns).WF := by
  unfold Table.WF at *
  unfold dropCols
  intro r hr
  simp only [List.mem_map] at hr
  obtain ⟨r0, hr0, rfl⟩ := hr
  simp [cellsDrop_length _ _ _ (h r0 hr0)]

theorem contains_false_not_mem {l : List String} {a : String}
    (h : ¬ l.contains a = true) : a ∉ l := by
  simpa [List.elem_eq_mem] using h

theorem getColD_mapCol_self (t : Table) (n : String) (f : Val → Val)
    (hWF : t.WF) (hf : f .nan = .nan) :
    getColD (mapCol t n f) n = (getColD t n).map f := by
  by_cases hc : t.cols.contains n = true
  · simp only [mapCol, hc, if_pos, getColD, List.map_map]
    apply List.map_eq_map_iff.mpr
    intro r hr
    have hmem : n ∈ t.cols := by simpa [List.elem_eq_mem] using hc
    simp [cellGet_cellSet_self _ _ _ _ hmem (hWF r hr)]
  · have hnm : n ∉ t.cols := contains_false_not_mem hc
    simp only [mapCol, hc, if_neg, Bool.false_eq_true, not_false_iff, getColD, List.map_map]
    apply List.map_eq_map_iff.mpr
    intro r _
    simp [cellGet_not_mem _ _ _ hnm, hf]

theorem getColD_mapCol_ne (t : Table) (n m : String) (f : Val → Val)
    (h : n ≠ m) : getColD (mapCol t m f) n = getColD t n := by
  unfold mapCol
  split
  · simp only [getColD, List.map_map]
    apply List.map_eq_map_iff.mpr
    intro r _
    simp [cellGet_cellSet_ne _ _ _ _ _ h]
  · rfl

theorem zipWith_cellSet_get (cols : List String) (n : String) (rows : List (List Val))
    (vs : List Val) (hWF : ∀ r ∈ rows, r.length = cols.length) (hmem : n ∈ cols)
    (hlen : vs.length = rows.length) :
    (List.zipWith (fun r v => cellSet cols r n v) rows vs).map (fun r => cellGet cols r n)
      = vs := by
  induction rows generalizing vs with
  | nil =>
    simp only [List.length_nil] at hlen
    simp [List.length_eq_zero.mp hlen]
  | cons r rs ih =>
    cases vs with
    | nil => simp at hlen
    | cons v vs2 =>
      simp only [List.zipWith_cons_cons, List.map_cons, List.cons.injEq]
      constructor
      · exact cellGet_cellSet_self _ _ _ _ hmem (hWF r (by simp))
      · exact ih _ (fun r2 hr2 => hWF r2 (by simp [hr2])) (by simpa using hlen)

theorem zipWith_append_get (cols : List String) (n : String) (rows : List (List Val))
    (vs : List Val) (hWF : ∀ r ∈ rows, r.length = cols.length) (hnm : n ∉ cols)
    (hlen : vs.length = rows.length) :
    (List.zipWith (fun r v => r ++ [v]) rows vs).map (fun r => cellGet (cols ++ [n]) r n)
      = vs := by
  induction rows generalizing vs with
  | nil =>
    simp only [List.length_nil] at hlen
    simp [List.length_eq_zero.mp hlen]
  | cons r rs ih =>
    cases vs with
    | nil => simp at hlen
    | cons v vs2 =>
      simp only [List.zipWith_cons_cons, List.map_cons, List.cons.injEq]
      constructor
      · exact cellGet_append_self _ _ _ _ (hWF r (by simp)) hnm
      · exact ih _ (fun r2 hr2 => hWF r2 (by simp [hr2])) (by simpa using hlen)

theorem zipWith_cellSet_get_ne (cols : List String) (n m : String) (rows : List (List Val))
    (vs : List Val) (hlen : vs.length = rows.length) (h : n ≠ m) :
    (List.zipWith (fun r v => cellSet cols r m v) rows vs).map (fun r => cellGet cols r n)
      = rows.map (fun r => cellGet cols r n) := by
  induction rows generalizing vs with
  | nil => simp
  | cons r rs ih =>
    cases vs with
    | nil => simp at hlen
    | cons v vs2 =>
      simp only [List.zipWith_cons_cons, List.map_cons, List.cons.injEq]
      constructor
      · exact cellGet_cellSet_ne _ _ _ _ _ h
      · exact ih _ (by simpa using hlen)

theorem zipWith_append_get_ne (cols : List String) (n m : String) (rows : List (List Val))
    (vs : List Val) (hWF : ∀ r ∈ rows, r.length = cols.length)
    (hlen : vs.length = rows.length) (h : n ≠ m) :
    (List.zipWith (fun r v => r ++ [v]) rows vs).map (fun r => cellGet (cols ++ [m]) r n)
      = rows.map (fun r => cellGet cols r n) := by
  induction rows generalizing vs with
  | nil => simp
  | cons r rs ih =>
    cases vs with
    | nil => simp at hlen
    | cons v vs2 =>
      simp only [List.zipWith_cons_cons, List.map_cons, List.cons.injEq]
      constructor
      · exact cellGet_append_ne _ _ _ _ _ (hWF r (by simp)) h
      · exact ih _ (fun r2 hr2 => hWF r2 (by simp [hr2])) (by simpa using hlen)

theorem getColD_setCol_self (t : Table) (n : String) (vs : List Val)
    (hWF : t.WF) (hlen : vs.length = t.nRows) :
    getColD (setCol t n vs) n = vs := by
  unfold Table.WF Table.nRows at *
  unfold setCol
  split
  · next hc =>
    have hmem : n ∈ t.cols := by simpa [List.elem_eq_mem] using hc
    exact zipWith_cellSet_get _ _ _ _ hWF hmem hlen
  · next hc =>
    exact zipWith_append_get _ _ _ _ hWF (contains_false_not_mem hc) hlen

theorem getColD_setCol_ne (t : Table) (n m : String) (vs : List Val)
    (hWF : t.WF) (hlen : vs.length = t.nRows) (h : n ≠ m) :
    getColD (setCol t m vs) n = getColD t n := by
  unfold Table.WF Table.nRows at *
  unfold setCol
  split
  · exact zipWith_cellSet_get_ne _ _ _ _ _ hlen h
  · exact zipWith_append_get_ne _ _ _ _ _ hWF hlen h

theorem getColD_dropCols (t : Table) (ns : List String) (n : String)
    (hnm : n ∉ ns) :
    getColD (dropCols t ns) n = getColD t n := by
  simp only [dropCols, getColD, List.map_map]
  apply List.map_eq_map_iff.mpr
  intro r _
  exact cellsDrop_cellGet _ _ _ _ hnm

/-! ### Lemmas about the pipeline stages -/

theorem toDatetimeCell_nan : toDatetimeCell .nan = .nan := rfl

theorem genderMap_nan : genderMap .nan = .nan := rfl

theorem scaleVal_nan (m s : ℚ) : scaleVal m s .nan = .nan := rfl

theorem map_toDatetime_of_dates (l : List Val) (h : ∀ v ∈ l, isDate v = true) :
    l.map toDatetimeCell = l := by
  induction l with
  | nil => rfl
  | cons v vs ih =>
    have hv := h v (by simp)
    have hd : toDatetimeCell v = v := by
      cases v <;> simp [isDate, toDatetimeCell] at hv ⊢
    simp [hd, ih (fun v2 hv2 => h v2 (by simp [hv2]))]

theorem any_isNan_of_dates (l : List Val) (h : ∀ v ∈ l, isDate v = true) :
    l.any isNan = false := by
  induction l with
  | nil => rfl
  | cons v vs ih =>
    have hv := h v (by simp)
    have hd : isNan v = false := by
      cases v <;> simp [isDate, isNan] at hv ⊢
    simp [hd, ih (fun v2 hv2 => h v2 (by simp [hv2]))]

theorem toDatetimeCell_not_date (v : Val) (h : isDate v = false) :
    toDatetimeCell v = .nan := by
  cases v <;> simp [isDate] at h ⊢ <;> rfl

theorem filter_unseen_nil (enc : DiagnosisEncoder) (col : List Val)
    (h : ∀ v ∈ col, diagSeen enc v = true) :
    col.filter (fun v => !diagSeen enc v) = [] := by
  induction col with
  | nil => rfl
  | cons v vs ih =>
    have hv := h v (by simp)
    simp [List.filter_cons, hv, ih (fun v2 hv2 => h v2 (by simp [hv2]))]

theorem diagTransform_ok (enc : DiagnosisEncoder) (col : List Val)
    (h : ∀ v ∈ col, diagSeen enc v = true) :
    diagTransform enc col = .ok (col.map (fun v => match v with
      | .str s => Val.num ((enc.classes.indexOf s : ℕ) : ℚ)
      | _ => .nan)) := by
  unfold diagTransform
  rw [filter_unseen_nil _ _ h]
  rfl

theorem diagTransform_err (enc : DiagnosisEncoder) (col : List Val)
    (h : ¬ ∀ v ∈ col, diagSeen enc v = true) :
    diagTransform enc col
      = .error (.encodingError (col.filter (fun v => !diagSeen enc v))) := by
  unfold diagTransform
  push_neg at h
  obtain ⟨v, hv, hseen⟩ := h
  have hmem : v ∈ col.filter (fun v2 => !diagSeen enc v2) := by
    simp only [List.mem_filter]
    exact ⟨hv, by simp [hseen]⟩
  have hne : ¬ (col.filter (fun v2 => !diagSeen enc v2)).isEmpty = true := by
    simp only [List.isEmpty_iff]
    exact List.ne_nil_of_mem hmem
  rw [if_neg hne]

theorem diagTransform_ok_length (enc : DiagnosisEncoder) (col dvals : List Val)
    (h : diagTransform enc col = .ok dvals) : dvals.length = col.length := by
  simp only [diagTransform] at h
  split at h
  · simp only [Except.ok.injEq] at h
    simp [← h]
  · simp at h

theorem losColumn_length (t : Table) : (losColumn t).length = t.nRows := by
  simp [losColumn, getColD_length]

/-- Column facts through stages 3-5 of `preprocess_data` (length of
stay, drops, gender encoding), for a generic rectangular input. -/
theorem tailStage_facts (u : Table) (hWFu : u.WF) :
    (mapCol (dropCols (setCol u "Length of Stay" (losColumn u))
        ["Patient ID", "Date Admitted", "Date Discharged"]) "Gender" genderMap).WF
    ∧ (mapCol (dropCols (setCol u "Length of Stay" (losColumn u))
        ["Patient ID", "Date Admitted", "Date Discharged"]) "Gender" genderMap).nRows
      = u.nRows
    ∧ getColD (mapCol (dropCols (setCol u "Length of Stay" (losColumn u))
        ["Patient ID", "Date Admitted", "Date Discharged"]) "Gender" genderMap) "Diagnosis"
      = getColD u "Diagnosis"
    ∧ getColD (mapCol (dropCols (setCol u "Length of Stay" (losColumn u))
        ["Patient ID", "Date Admitted", "Date Discharged"]) "Gender" genderMap) "Gender"
      = (getColD u "Gender").map genderMap
    ∧ getColD (mapCol (dropCols (setCol u "Length of Stay" (losColumn u))
        ["Patient ID", "Date Admitted", "Date Discharged"]) "Gender" genderMap)
        "Length of Stay"
      = losColumn u := by
  have hlenLos : (losColumn u).length = u.nRows := losColumn_length u
  have hWF3 : (setCol u "Length of Stay" (losColumn u)).WF := WF_setCol _ _ _ hWFu hlenLos
  have hWF4 : (dropCols (setCol u "Length of Stay" (losColumn u))
      ["Patient ID", "Date Admitted", "Date Discharged"]).WF := WF_dropCols _ _ hWF3
  refine ⟨WF_mapCol _ _ _ hWF4, ?_, ?_, ?_, ?_⟩
  · rw [nRows_mapCol, nRows_dropCols, nRows_setCol _ _ _ hlenLos]
  · rw [getColD_mapCol_ne _ _ _ _ (by decide), getColD_dropCols _ _ _ (by decide),
      getColD_setCol_ne _ _ _ _ hWFu hlenLos (by decide)]
  · rw [getColD_mapCol_self _ _ _ hWF4 genderMap_nan, getColD_dropCols _ _ _ (by decide),
      getColD_setCol_ne _ _ _ _ hWFu hlenLos (by decide)]
  · rw [getColD_mapCol_ne _ _ _ _ (by decide), getColD_dropCols _ _ _ (by decide),
      getColD_setCol_self _ _ _ hWFu hlenLos]

/-- Column facts through the scaling stage, for a generic rectangular
input. -/
theorem scaleStage_facts (sc : Scaler) (v : Table) (hWFv : v.WF) :
    getColD (scaleNumCols sc v) "Length of Stay"
      = (getColD v "Length of Stay").map (scaleVal sc.losMean sc.losScale)
    ∧ getColD (scaleNumCols sc v) "Gender" = getColD v "Gender" := by
  have hWFa : (mapCol v "Age" (scaleVal sc.ageMean sc.ageScale)).WF := WF_mapCol _ _ _ hWFv
  have hWFb : (mapCol (mapCol v "Age" (scaleVal sc.ageMean sc.ageScale))
      "Amount Billed" (scaleVal sc.billedMean sc.billedScale)).WF := WF_mapCol _ _ _ hWFa
  constructor
  · unfold scaleNumCols
    rw [getColD_mapCol_self _ _ _ hWFb (scaleVal_nan _ _),
      getColD_mapCol_ne _ _ _ _ (by decide), getColD_mapCol_ne _ _ _ _ (by decide)]
  · unfold scaleNumCols
    rw [getColD_mapCol_ne _ _ _ _ (by decide), getColD_mapCol_ne _ _ _ _ (by decide),
      getColD_mapCol_ne _ _ _ _ (by decide)]

/-- Column facts through the date-conversion stage. -/
theorem dateStage_facts (df : Table) (hWF : df.WF)
    (hA : ∀ v ∈ getColD df "Date Admitted", isDate v = true)
    (hD : ∀ v ∈ getColD df "Date Discharged", isDate v = true) :
    hasNullDates (mapCol (mapCol df "Date Admitted" toDatetimeCell)
        "Date Discharged" toDatetimeCell) = false
    ∧ getColD (mapCol (mapCol df "Date Admitted" toDatetimeCell)
        "Date Discharged" toDatetimeCell) "Date Admitted" = getColD df "Date Admitted"
    ∧ getColD (mapCol (mapCol df "Date Admitted" toDatetimeCell)
        "Date Discharged" toDatetimeCell) "Date Discharged" = getColD df "Date Discharged"
    ∧ (mapCol (mapCol df "Date Admitted" toDatetimeCell)
        "Date Discharged" toDatetimeCell).WF := by
  have hWF1 : (mapCol df "Date Admitted" toDatetimeCell).WF := WF_mapCol _ _ _ hWF
  have hDA : getColD (mapCol (mapCol df "Date Admitted" toDatetimeCell)
      "Date Discharged" toDatetimeCell) "Date Admitted" = getColD df "Date Admitted" := by
    rw [getColD_mapCol_ne _ _ _ _ (by decide),
      getColD_mapCol_self _ _ _ hWF toDatetimeCell_nan, map_toDatetime_of_dates _ hA]
  have hDD : getColD (mapCol (mapCol df "Date Admitted" toDatetimeCell)
      "Date Discharged" toDatetimeCell) "Date Discharged" = getColD df "Date Discharged" := by
    rw [getColD_mapCol_self _ _ _ hWF1 toDatetimeCell_nan,
      getColD_mapCol_ne _ _ _ _ (by decide), map_toDatetime_of_dates _ hD]
  refine ⟨?_, hDA, hDD, WF_mapCol _ _ _ hWF1⟩
  unfold hasNullDates
  rw [hDA, hDD, any_isNan_of_dates _ hA, any_isNan_of_dates _ hD]
  rfl

theorem dateStage_other (df : Table) (n : String) (h1 : n ≠ "Date Admitted")
    (h2 : n ≠ "Date Discharged") :
    getColD (mapCol (mapCol df "Date Admitted" toDatetimeCell)
        "Date Discharged" toDatetimeCell) n = getColD df n := by
  rw [getColD_mapCol_ne _ _ _ _ h2, getColD_mapCol_ne _ _ _ _ h1]

/-- A batch whose dates all parse and whose diagnoses are all in the
vocabulary passes preprocessing; the length-of-stay feature is the
scaled day difference and the gender column is the `map`-encoded one. -/
theorem preprocess_ok_of_valid (env : Env) (df : Table) (hWF : df.WF)
    (hA : ∀ v ∈ getColD df "Date Admitted", isDate v = true)
    (hD : ∀ v ∈ getColD df "Date Discharged", isDate v = true)
    (hG : ∀ v ∈ getColD df "Diagnosis", diagSeen env.diagnosis_encoder v = true) :
    ∃ p, preprocess_data env df = .ok p
      ∧ getColD p "Length of Stay"
          = (List.zipWith dateSub (getColD df "Date Discharged")
              (getColD df "Date Admitted")).map
              (scaleVal env.scaler.losMean env.scaler.losScale)
      ∧ getColD p "Gender" = (getColD df "Gender").map genderMap := by
  obtain ⟨hNull, hDA2, hDD2, hWF2⟩ := dateStage_facts df hWF hA hD
  obtain ⟨hWF5, hR5, hDg5, hGd5, hLos5⟩ := tailStage_facts _ hWF2
  have hDgCol := hDg5.trans (dateStage_other df _ (by decide) (by decide))
  have hdt := diagTransform_ok env.diagnosis_encoder (getColD df "Diagnosis") hG
  have hlenD : ((getColD df "Diagnosis").map (fun v => match v with
      | .str s => Val.num ((env.diagnosis_encoder.classes.indexOf s : ℕ) : ℚ)
      | _ => Val.nan)).length
      = (mapCol (dropCols (setCol (mapCol (mapCol df "Date Admitted" toDatetimeCell)
          "Date Discharged" toDatetimeCell) "Length of Stay"
          (losColumn (mapCol (mapCol df "Date Admitted" toDatetimeCell)
            "Date Discharged" toDatetimeCell)))
          ["Patient ID", "Date Admitted", "Date Discharged"]) "Gender" genderMap).nRows := by
    rw [hR5, List.length_map, getColD_length, nRows_mapCol, nRows_mapCol]
  have hWF6 := WF_setCol _ "Diagnosis" _ hWF5 hlenD
  obtain ⟨hs1, hs2⟩ := scaleStage_facts env.scaler _ hWF6
  have hrun : preprocess_data env df
      = .ok (scaleNumCols env.scaler (setCol
          (mapCol (dropCols (setCol (mapCol (mapCol df "Date Admitted" toDatetimeCell)
              "Date Discharged" toDatetimeCell) "Length of Stay"
              (losColumn (mapCol (mapCol df "Date Admitted" toDatetimeCell)
                "Date Discharged" toDatetimeCell)))
              ["Patient ID", "Date Admitted", "Date Discharged"]) "Gender" genderMap)
          "Diagnosis" ((getColD df "Diagnosis").map (fun v => match v with
            | .str s => Val.num ((env.diagnosis_encoder.classes.indexOf s : ℕ) : ℚ)
            | _ => Val.nan)))) := by
    simp only [preprocess_data]
    rw [hNull]
    simp only [Bool.false_eq_true, if_false]
    rw [hDgCol, hdt]
  refine ⟨_, hrun, ?_, ?_⟩
  · rw [hs1, getColD_setCol_ne _ _ _ _ hWF5 hlenD (by decide), hLos5]
    unfold losColumn
    rw [hDA2, hDD2]
  · rw [hs2, getColD_setCol_ne _ _ _ _ hWF5 hlenD (by decide), hGd5,
      dateStage_other df _ (by decide) (by decide)]

/-- A batch whose dates all parse but whose diagnosis column holds a
value outside the vocabulary fails with the encoding error naming every
unseen value. -/
theorem preprocess_err_of_unseen (env : Env) (df : Table) (hWF : df.WF)
    (hA : ∀ v ∈ getColD df "Date Admitted", isDate v = true)
    (hD : ∀ v ∈ getColD df "Date Discharged", isDate v = true)
    (hbad : ¬ ∀ v ∈ getColD df "Diagnosis", diagSeen env.diagnosis_encoder v = true) :
    preprocess_data env df = .error (.encodingError
      ((getColD df "Diagnosis").filter (fun v => !diagSeen env.diagnosis_encoder v))) := by
  obtain ⟨hNull, hDA2, hDD2, hWF2⟩ := dateStage_facts df hWF hA hD
  obtain ⟨hWF5, hR5, hDg5, hGd5, hLos5⟩ := tailStage_facts _ hWF2
  have hDgCol := hDg5.trans (dateStage_other df _ (by decide) (by decide))
  have hdt := diagTransform_err env.diagnosis_encoder _ hbad
  simp only [preprocess_data]
  rw [hNull]
  simp only [Bool.false_eq_true, if_false]
  rw [hDgCol, hdt]

/-- A batch with an unparsable or missing date in either date column is
rejected wholesale with the date-format error. -/
theorem preprocess_err_of_badDate (env : Env) (df : Table) (hWF : df.WF)
    (hbad : (∃ v ∈ getColD df "Date Admitted", isDate v = false)
      ∨ (∃ v ∈ getColD df "Date Discharged", isDate v = false)) :
    preprocess_data env df = .error .dataFormatError := by
  have hWF1 := WF_mapCol df "Date Admitted" toDatetimeCell hWF
  have hnull : hasNullDates (mapCol (mapCol df "Date Admitted" toDatetimeCell)
      "Date Discharged" toDatetimeCell) = true := by
    unfold hasNullDates
    rcases hbad with ⟨v, hv, hvd⟩ | ⟨v, hv, hvd⟩
    · have hcol : getColD (mapCol (mapCol df "Date Admitted" toDatetimeCell)
          "Date Discharged" toDatetimeCell) "Date Admitted"
          = (getColD df "Date Admitted").map toDatetimeCell := by
        rw [getColD_mapCol_ne _ _ _ _ (by decide),
          getColD_mapCol_self _ _ _ hWF toDatetimeCell_nan]
      rw [hcol]
      have hmem : Val.nan ∈ (getColD df "Date Admitted").map toDatetimeCell :=
        List.mem_map.mpr ⟨v, hv, toDatetimeCell_not_date v hvd⟩
      have hany : ((getColD df "Date Admitted").map toDatetimeCell).any isNan = true :=
        List.any_eq_true.mpr ⟨.nan, hmem, rfl⟩
      rw [hany, Bool.true_or]
    · have hcol : getColD (mapCol (mapCol df "Date Admitted" toDatetimeCell)
          "Date Discharged" toDatetimeCell) "Date Discharged"
          = (getColD df "Date Discharged").map toDatetimeCell := by
        rw [getColD_mapCol_self _ _ _ hWF1 toDatetimeCell_nan,
          getColD_mapCol_ne _ _ _ _ (by decide)]
      rw [hcol]
      have hmem : Val.nan ∈ (getColD df "Date Discharged").map toDatetimeCell :=
        List.mem_map.mpr ⟨v, hv, toDatetimeCell_not_date v hvd⟩
      have hany : ((getColD df "Date Discharged").map toDatetimeCell).any isNan = true :=
        List.any_eq_true.mpr ⟨.nan, hmem, rfl⟩
      rw [hany, Bool.or_true]
  simp only [preprocess_data]
  rw [hnull]
  rfl

theorem preprocess_data_nRows (env : Env) (df p : Table)
    (h : preprocess_data env df = .ok p) : p.nRows = df.nRows := by
  simp only [preprocess_data] at h
  split at h
  · exact absurd h (by simp)
  · split at h
    · exact absurd h (by simp)
    · next dvals heq =>
      simp only [Except.ok.injEq] at h
      subst h
      have hlen : dvals.length
          = (mapCol (dropCols (setCol (mapCol (mapCol df "Date Admitted" toDatetimeCell)
              "Date Discharged" toDatetimeCell) "Length of Stay"
              (losColumn (mapCol (mapCol df "Date Admitted" toDatetimeCell)
                "Date Discharged" toDatetimeCell)))
              ["Patient ID", "Date Admitted", "Date Discharged"]) "Gender" genderMap).nRows := by
        rw [diagTransform_ok_length _ _ _ heq, getColD_length]
      unfold scaleNumCols
      rw [nRows_mapCol, nRows_mapCol, nRows_mapCol, nRows_setCol _ _ _ hlen,
        nRows_mapCol, nRows_dropCols, nRows_setCol _ _ _ (losColumn_length _),
        nRows_mapCol, nRows_mapCol]

theorem make_predictions_ok_elim (env : Env) (df : Table) (preds : List String)
    (h : make_predictions env df = .ok preds) :
    ∃ p, preprocess_data env df = .ok p
      ∧ preds = decodeLabels env (p.rows.map env.model) := by
  unfold make_predictions at h
  cases hp : preprocess_data env df with
  | error e => rw [hp] at h; simp [Except.map] at h
  | ok p =>
    rw [hp] at h
    simp only [Except.map, Except.ok.injEq] at h
    exact ⟨p, rfl, h.symm⟩

theorem make_predictions_length (env : Env) (df : Table) (preds : List String)
    (h : make_predictions env df = .ok preds) : preds.length = df.nRows := by
  obtain ⟨p, hp, rfl⟩ := make_predictions_ok_elim env df preds h
  have := preprocess_data_nRows env df p hp
  simp only [decodeLabels, List.length_map]
  exact this

theorem make_predictions_err (env : Env) (df : Table) (e : PErr)
    (h : preprocess_data env df = .error e) : make_predictions env df = .error e := by
  unfold make_predictions
  rw [h]
  rfl

/-! ### Lemmas about the upload handler -/

theorem runUpload_err_of_pred_error (env : Env) (failAt : Option Nat) (st : StoreState)
    (hid : Nat) (df : Table) (e : PErr) (h : make_predictions env df = .error e) :
    runUpload env failAt st hid df = .err st := by
  unfold runUpload
  rw [h]

theorem runUpload_ok_elim (env : Env) (st : StoreState) (hid : Nat) (df : Table)
    (st2 : StoreState) (h : runUpload env none st hid df = .ok st2) :
    ∃ preds, make_predictions env df = .ok preds
      ∧ st2.dataFiles = st.dataFiles ++ [df]
      ∧ st2.predFiles = st.predFiles ++ [outputArtifact df preds]
      ∧ st2.datasets = st.datasets ++ [⟨hid, st.dataFiles.length, st.predFiles.length⟩]
      ∧ st2.predictions = st.predictions
          ++ [⟨st.datasets.length, (outputArtifact df preds).nRows,
              countFraudCol (getColD (outputArtifact df preds) "Prediction"),
              (outputArtifact df preds).nRows
                - countFraudCol (getColD (outputArtifact df preds) "Prediction")⟩] := by
  unfold runUpload at h
  cases hp : make_predictions env df with
  | error e => rw [hp] at h; cases h
  | ok preds =>
    rw [hp] at h
    simp only [reduceCtorEq, if_false, UploadResult.ok.injEq] at h
    subst h
    exact ⟨preds, rfl, rfl, rfl, rfl, rfl⟩

theorem runUpload_failAt3 (env : Env) (st : StoreState) (hid : Nat) (df : Table)
    (preds : List String) (h : make_predictions env df = .ok preds) :
    runUpload env (some 3) st hid df
      = .err ⟨st.dataFiles ++ [df], st.predFiles ++ [outputArtifact df preds],
          st.datasets ++ [⟨hid, st.dataFiles.length, st.predFiles.length⟩],
          st.predictions⟩ := by
  unfold runUpload
  rw [h]
  rfl

/-! ### Lemmas about aggregation -/

theorem fraudCount_append (a b : List String) :
    fraudCount (a ++ b) = fraudCount a + fraudCount b := by
  simp [fraudCount, List.filter_append]

theorem fraudCount_le (l : List String) : fraudCount l ≤ l.length :=
  List.length_filter_le _ _

theorem fraudCount_flatten (bs : List (List String)) :
    fraudCount bs.flatten = (bs.map fraudCount).sum := by
  induction bs with
  | nil => rfl
  | cons b bs ih => simp [List.flatten_cons, fraudCount_append, ih]

theorem nonFraud_flatten (bs : List (List String)) :
    bs.flatten.length - fraudCount bs.flatten
      = (bs.map (fun b => b.length - fraudCount b)).sum := by
  induction bs with
  | nil => rfl
  | cons b bs ih =>
    simp only [List.flatten_cons, List.map_cons, List.sum_cons, List.length_append,
      fraudCount_append]
    have h1 := fraudCount_le b
    have h2 := fraudCount_le bs.flatten
    omega

theorem flatten_perm_of_perm {α : Type} {bs bs2 : List (List α)} (h : bs.Perm bs2) :
    bs.flatten.Perm bs2.flatten := by
  induction h with
  | nil => exact .rfl
  | cons x _ ih => simpa using ih.append_left x
  | swap x y l =>
    simp only [List.flatten_cons]
    rw [← List.append_assoc, ← List.append_assoc]
    exact List.perm_append_comm.append_right _
  | trans _ _ ih1 ih2 => exact ih1.trans ih2

theorem summaryOf_perm {l1 l2 : List String} (h : l1.Perm l2) :
    summaryOf l1 = summaryOf l2 := by
  unfold summaryOf fraudCount
  rw [h.length_eq, (h.filter _).length_eq]

theorem breakdown_sum (labels : List String) :
    ((breakdown labels).map (fun pr => pr.2)).sum = labels.length := by
  unfold breakdown
  rw [List.map_map]
  have hcomp : ((fun pr : String × Nat => pr.2) ∘ fun l => (l, labels.count l))
      = fun l => labels.count l := rfl
  rw [hcomp]
  exact List.sum_map_count_dedup_eq_length labels

theorem countFraudCol_map_str (preds : List String) :
    countFraudCol (preds.map Val.str) = fraudCount preds := by
  unfold countFraudCol fraudCount
  induction preds with
  | nil => rfl
  | cons p ps ih =>
    by_cases hp : p = "No Fraud"
    · subst hp
      simp [List.filter_cons, ih]
    · have h1 : (Val.str p != Val.str "No Fraud") = true :=
        bne_iff_ne.mpr (by simp [hp])
      have h2 : (p != "No Fraud") = true := bne_iff_ne.mpr hp
      simp [List.filter_cons, h1, h2, ih]

/-! ### The heap frame property -/

theorem getD_set_ne {α : Type} (l : List α) (j i : Nat) (a d : α) (h : j ≠ i) :
    (l.set j a).getD i d = l.getD i d := by
  simp [List.getD, List.getElem?_set_ne h]

theorem preprocess_heap_frame (env : Env) (hp : Heap) (i : Nat) (hi : i < hp.length) :
    ((preprocess_data_heap env hp i).1).getD i default = hp.getD i default := by
  have hne : hp.length ≠ i := (Nat.ne_of_lt hi).symm
  simp only [preprocess_data_heap, Heap.upd]
  split
  · rw [getD_set_ne _ _ _ _ _ hne, getD_set_ne _ _ _ _ _ hne,
      List.getD_append _ _ _ _ hi]
  · split
    · rw [getD_set_ne _ _ _ _ _ hne, getD_set_ne _ _ _ _ _ hne,
        getD_set_ne _ _ _ _ _ hne, getD_set_ne _ _ _ _ _ hne,
        getD_set_ne _ _ _ _ _ hne, List.getD_append _ _ _ _ hi]
    · rw [getD_set_ne _ _ _ _ _ hne, getD_set_ne _ _ _ _ _ hne,
        getD_set_ne _ _ _ _ _ hne, getD_set_ne _ _ _ _ _ hne,
        getD_set_ne _ _ _ _ _ hne, getD_set_ne _ _ _ _ _ hne,
        getD_set_ne _ _ _ _ _ hne, List.getD_append _ _ _ _ hi]

/-! ### Claims -/

/-- C1: for every upload that completes classification, the persisted
summary satisfies total_cases = row count of the stored prediction
table, fraud_count = number of its rows whose prediction label is not
"No Fraud", non_fraud_count = total − fraud, and fraud + non_fraud =
total; when the upload has no pre-existing `Prediction` column the
summary is exactly the summary of the predicted labels, and the 3-row
scenario ["No Fraud", "Billing Fraud", "No Fraud"] yields (3, 1, 2). -/
theorem C1_summary_counts :
    (∀ (env : Env) (st : StoreState) (hid : Nat) (df : Table) (st2 : StoreState),
      runUpload env none st hid df = .ok st2 →
      ∃ dfPred s, st2.predFiles = st.predFiles ++ [dfPred]
        ∧ st2.predictions = st.predictions ++ [s]
        ∧ s.total_cases = dfPred.nRows
        ∧ s.fraud_count = countFraudCol (getColD dfPred "Prediction")
        ∧ s.non_fraud_count = s.total_cases - s.fraud_count
        ∧ s.fraud_count + s.non_fraud_count = s.total_cases)
    ∧ (∀ (env : Env) (st : StoreState) (hid : Nat) (df : Table) (preds : List String)
        (st2 : StoreState), df.WF → "Prediction" ∉ df.cols →
        make_predictions env df = .ok preds →
        runUpload env none st hid df = .ok st2 →
        ∃ s, st2.predictions = st.predictions ++ [s]
          ∧ s.total_cases = (summaryOf preds).total
          ∧ s.fraud_count = (summaryOf preds).fraud
          ∧ s.non_fraud_count = (summaryOf preds).nonFraud)
    ∧ summaryOf ["No Fraud", "Billing Fraud", "No Fraud"] = ⟨3, 1, 2⟩ := by
  refine ⟨?_, ?_, by decide⟩
  · intro env st hid df st2 h
    obtain ⟨preds, hpred, hdata, hpfiles, hds, hsumm⟩ := runUpload_ok_elim env st hid df st2 h
    refine ⟨outputArtifact df preds, _, hpfiles, hsumm, rfl, rfl, rfl, ?_⟩
    have hle : countFraudCol (getColD (outputArtifact df preds) "Prediction")
        ≤ (outputArtifact df preds).nRows := by
      have hf := List.length_filter_le (fun v => v != Val.str "No Fraud")
        (getColD (outputArtifact df preds) "Prediction")
      have hg := getColD_length (outputArtifact df preds) "Prediction"
      unfold countFraudCol
      omega
    simp only []
    omega
  · intro env st hid df preds st2 hWF hni hpred h
    obtain ⟨preds2, hpred2, hdata, hpfiles, hds, hsumm⟩ := runUpload_ok_elim env st hid df st2 h
    have hpp : preds2 = preds := Except.ok.inj (hpred2.symm.trans hpred)
    subst hpp
    have hplen := make_predictions_length env df preds2 hpred
    have hlen2 : (preds2.map Val.str).length = df.nRows := by
      rw [List.length_map]
      exact hplen
    have hcol : getColD (outputArtifact df preds2) "Prediction" = preds2.map Val.str :=
      getColD_setCol_self _ _ _ hWF hlen2
    have hn : (outputArtifact df preds2).nRows = df.nRows := nRows_setCol _ _ _ hlen2
    refine ⟨_, hsumm, ?_, ?_, ?_⟩
    · simp only []
      rw [hn, ← hplen]
      rfl
    · simp only []
      rw [hcol, countFraudCol_map_str]
      rfl
    · simp only []
      rw [hcol, countFraudCol_map_str, hn, ← hplen]
      rfl

/-- C1 witness: the summary persisted for `testTable` under `testEnv`. -/
theorem C1_summary_counts_witness :
    ∃ dfPred s, stAfterOk.predFiles = emptyStore.predFiles ++ [dfPred]
      ∧ stAfterOk.predictions = emptyStore.predictions ++ [s]
      ∧ s.total_cases = dfPred.nRows
      ∧ s.fraud_count = countFraudCol (getColD dfPred "Prediction")
      ∧ s.non_fraud_count = s.total_cases - s.fraud_count
      ∧ s.fraud_count + s.non_fraud_count = s.total_cases :=
  C1_summary_counts.1 testEnv emptyStore 1 testTable stAfterOk (by decide)

/-- C2 counterexample: a one-row batch whose discharge date (day 5)
precedes its admission date (day 10) is not rejected; preprocessing
succeeds, the length-of-stay feature is −5, and classification runs. -/
theorem C2_counterexample_negative_los :
    cellGet negLosTable.cols (negLosTable.rows.getD 0 []) "Date Admitted" = Val.date 10
    ∧ cellGet negLosTable.cols (negLosTable.rows.getD 0 []) "Date Discharged" = Val.date 5
    ∧ (preprocess_data testEnv negLosTable).map (fun p => getColD p "Length of Stay")
        = .ok [Val.num (-5)]
    ∧ make_predictions testEnv negLosTable = .ok ["Billing Fraud"] := by
  decide

/-- C2 amended: a record with discharge date earlier than admission date
is not rejected — whenever every date parses (and diagnoses are known),
preprocessing succeeds and the length-of-stay feature is the scaled,
possibly negative, day difference; only an unparsable or missing date
in either date column causes the batch to be rejected. -/
theorem C2_amended_validation :
    (∀ (env : Env) (df : Table), df.WF →
      (∀ v ∈ getColD df "Date Admitted", isDate v = true) →
      (∀ v ∈ getColD df "Date Discharged", isDate v = true) →
      (∀ v ∈ getColD df "Diagnosis", diagSeen env.diagnosis_encoder v = true) →
      ∃ p, preprocess_data env df = .ok p
        ∧ getColD p "Length of Stay"
            = (List.zipWith dateSub (getColD df "Date Discharged")
                (getColD df "Date Admitted")).map
                (scaleVal env.scaler.losMean env.scaler.losScale))
    ∧ (∀ (env : Env) (df : Table), df.WF →
        ((∃ v ∈ getColD df "Date Admitted", isDate v = false)
          ∨ (∃ v ∈ getColD df "Date Discharged", isDate v = false)) →
        preprocess_data env df = .error .dataFormatError) := by
  constructor
  · intro env df hWF hA hD hG
    obtain ⟨p, hp, hlos, _⟩ := preprocess_ok_of_valid env df hWF hA hD hG
    exact ⟨p, hp, hlos⟩
  · intro env df hWF hbad
    exact preprocess_err_of_badDate env df hWF hbad

/-- C2 witness: the negative-stay batch passes preprocessing. -/
theorem C2_amended_validation_witness :
    ∃ p, preprocess_data testEnv negLosTable = .ok p
      ∧ getColD p "Length of Stay"
          = (List.zipWith dateSub (getColD negLosTable "Date Discharged")
              (getColD negLosTable "Date Admitted")).map
              (scaleVal testEnv.scaler.losMean testEnv.scaler.losScale) :=
  C2_amended_validation.1 testEnv negLosTable (by decide) (by decide) (by decide) (by decide)

/-- C3 counterexample: a gender value other than Male/Female does not
raise any error; it is silently encoded as a missing value and the row
proceeds to classification. -/
theorem C3_counterexample_gender_nan :
    (preprocess_data testEnv otherGenderTable).map (fun p => getColD p "Gender")
        = .ok [Val.nan]
    ∧ make_predictions testEnv otherGenderTable = .ok ["Billing Fraud"] := by
  decide

/-- C3 amended: the transformer never fails on gender — the gender
column is encoded pointwise by the `map`, Male to 1, Female to 0, and
any other value silently to the missing value, which reaches the
classifier. -/
theorem C3_amended_gender :
    (∀ (env : Env) (df : Table), df.WF →
      (∀ v ∈ getColD df "Date Admitted", isDate v = true) →
      (∀ v ∈ getColD df "Date Discharged", isDate v = true) →
      (∀ v ∈ getColD df "Diagnosis", diagSeen env.diagnosis_encoder v = true) →
      ∃ p, preprocess_data env df = .ok p
        ∧ getColD p "Gender" = (getColD df "Gender").map genderMap)
    ∧ (∀ s : String, s ≠ "Male" → s ≠ "Female" → genderMap (.str s) = .nan)
    ∧ genderMap (.str "Male") = .num 1
    ∧ genderMap (.str "Female") = .num 0 := by
  refine ⟨?_, ?_, rfl, rfl⟩
  · intro env df hWF hA hD hG
    obtain ⟨p, hp, _, hgen⟩ := preprocess_ok_of_valid env df hWF hA hD hG
    exact ⟨p, hp, hgen⟩
  · intro s h1 h2
    simp [genderMap, h1, h2]

/-- C3 witness: the batch with gender "Other" passes preprocessing with
a missing gender encoding. -/
theorem C3_amended_gender_witness :
    (∃ p, preprocess_data testEnv otherGenderTable = .ok p
      ∧ getColD p "Gender" = (getColD otherGenderTable "Gender").map genderMap)
    ∧ genderMap (.str "Other") = .nan :=
  ⟨C3_amended_gender.1 testEnv otherGenderTable (by decide) (by decide) (by decide)
      (by decide),
   C3_amended_gender.2.1 "Other" (by decide) (by decide)⟩

/-- C4: a validated batch holding a diagnosis value outside the trained
vocabulary fails preprocessing with the encoding error naming the
unknown category, no row is encoded with a default, and the upload
handler persists nothing. -/
theorem C4_unknown_diagnosis :
    ∀ (env : Env) (df : Table), df.WF →
      (∀ v ∈ getColD df "Date Admitted", isDate v = true) →
      (∀ v ∈ getColD df "Date Discharged", isDate v = true) →
      ∀ s : String, Val.str s ∈ getColD df "Diagnosis" →
        s ∉ env.diagnosis_encoder.classes →
        ∃ unseen, preprocess_data env df = .error (.encodingError unseen)
          ∧ Val.str s ∈ unseen
          ∧ ∀ (failAt : Option Nat) (st : StoreState) (hid : Nat),
              runUpload env failAt st hid df = .err st := by
  intro env df hWF hA hD s hmem hnot
  have hseen : diagSeen env.diagnosis_encoder (Val.str s) = false := by
    simp [diagSeen, List.elem_eq_mem, hnot]
  have hbad : ¬ ∀ v ∈ getColD df "Diagnosis",
      diagSeen env.diagnosis_encoder v = true := by
    intro hall
    have hx := hall _ hmem
    rw [hseen] at hx
    exact absurd hx (by simp)
  have herr := preprocess_err_of_unseen env df hWF hA hD hbad
  refine ⟨_, herr, ?_, ?_⟩
  · exact List.mem_filter.mpr ⟨hmem, by simp [hseen]⟩
  · intro failAt st hid
    exact runUpload_err_of_pred_error env failAt st hid df _
      (make_predictions_err env df _ herr)

/-- C4 witness: the unknown diagnosis "Scurvy" fails the upload. -/
theorem C4_unknown_diagnosis_witness :
    ∃ unseen, preprocess_data testEnv unknownDiagTable = .error (.encodingError unseen)
      ∧ Val.str "Scurvy" ∈ unseen
      ∧ ∀ (failAt : Option Nat) (st : StoreState) (hid : Nat),
          runUpload testEnv failAt st hid unknownDiagTable = .err st :=
  C4_unknown_diagnosis testEnv unknownDiagTable (by decide) (by decide) (by decide)
    "Scurvy" (by decide) (by decide)

/-- C5: a table missing required columns is rejected before the
pipeline runs, the error names every missing column, the store is left
untouched; concretely, a file missing "Diagnosis" yields a schema
error naming exactly "Diagnosis" against the unchanged store. -/
theorem C5_schema_error :
    (∀ (env : Env) (failAt : Option Nat) (st : StoreState) (hid : Nat) (df : Table),
      (∃ c ∈ required_columns, c ∉ df.cols) →
      uploadFlow env failAt st hid df
        = .schemaErr (required_columns.filter (fun c => !df.cols.contains c)) st
      ∧ ∀ c ∈ required_columns, c ∉ df.cols →
          c ∈ required_columns.filter (fun c2 => !df.cols.contains c2))
    ∧ uploadFlow testEnv none emptyStore 1 noDiagColTable
        = .schemaErr ["Diagnosis"] emptyStore := by
  constructor
  · intro env failAt st hid df hmissing
    obtain ⟨c, hc, hnc⟩ := hmissing
    have hmemf : c ∈ required_columns.filter (fun c2 => !df.cols.contains c2) :=
      List.mem_filter.mpr ⟨hc, by simp [List.elem_eq_mem, hnc]⟩
    have hne : ¬ (required_columns.filter (fun c2 => !df.cols.contains c2)).isEmpty
        = true := by
      simp only [List.isEmpty_iff]
      exact List.ne_nil_of_mem hmemf
    constructor
    · simp only [uploadFlow]
      rw [if_neg hne]
    · intro c2 hc2 hnc2
      exact List.mem_filter.mpr ⟨hc2, by simp [List.elem_eq_mem, hnc2]⟩
  · decide

/-- C5 witness: the upload missing "Diagnosis" is rejected with the
filter naming it; nothing is persisted. -/
theorem C5_schema_error_witness :
    uploadFlow testEnv none emptyStore 1 noDiagColTable
      = .schemaErr (required_columns.filter (fun c => !noDiagColTable.cols.contains c))
          emptyStore
    ∧ ∀ c ∈ required_columns, c ∉ noDiagColTable.cols →
        c ∈ required_columns.filter (fun c2 => !noDiagColTable.cols.contains c2) :=
  C5_schema_error.1 testEnv none emptyStore 1 noDiagColTable (by decide)

/-- C6: the national aggregation over concatenated batches is the
componentwise sum of the per-batch summaries, is invariant under
permuting the batches, its per-label breakdown counts sum to the total
row count, and batches with summaries (10,2,8) and (5,1,4) aggregate to
(15,3,12) with breakdown counts summing to 15. -/
theorem C6_national_aggregation :
    (∀ bs : List (List String),
      (nationalAgg bs).total = (bs.map (fun b => (summaryOf b).total)).sum
      ∧ (nationalAgg bs).fraud = (bs.map (fun b => (summaryOf b).fraud)).sum
      ∧ (nationalAgg bs).nonFraud = (bs.map (fun b => (summaryOf b).nonFraud)).sum)
    ∧ (∀ bs bs2 : List (List String), bs.Perm bs2 → nationalAgg bs = nationalAgg bs2)
    ∧ (∀ bs : List (List String),
        ((breakdown bs.flatten).map (fun pr => pr.2)).sum = (nationalAgg bs).total)
    ∧ (∀ b1 b2 : List String, summaryOf b1 = ⟨10, 2, 8⟩ → summaryOf b2 = ⟨5, 1, 4⟩ →
        nationalAgg [b1, b2] = ⟨15, 3, 12⟩
          ∧ ((breakdown (List.flatten [b1, b2])).map (fun pr => pr.2)).sum = 15) := by
  have htot : ∀ bs : List (List String),
      (nationalAgg bs).total = (bs.map (fun b => (summaryOf b).total)).sum := by
    intro bs
    simp [nationalAgg, summaryOf, List.length_flatten]
  refine ⟨?_, ?_, ?_, ?_⟩
  · intro bs
    refine ⟨htot bs, ?_, ?_⟩
    · simp [nationalAgg, summaryOf, fraudCount_flatten]
    · simp only [nationalAgg, summaryOf]
      exact nonFraud_flatten bs
  · intro bs bs2 h
    exact summaryOf_perm (flatten_perm_of_perm h)
  · intro bs
    simp only [nationalAgg, summaryOf]
    exact breakdown_sum bs.flatten
  · intro b1 b2 h1 h2
    simp only [summaryOf, Summary.mk.injEq] at h1 h2
    obtain ⟨hl1, hf1, _⟩ := h1
    obtain ⟨hl2, hf2, _⟩ := h2
    constructor
    · simp only [nationalAgg, summaryOf, List.flatten_cons, List.flatten_nil,
        List.append_nil, List.length_append, fraudCount_append, hl1, hf1, hl2, hf2]
    · rw [breakdown_sum]
      simp [hl1, hl2]

/-- C6 witness: two concrete batches with summaries (10,2,8) and
(5,1,4). -/
theorem C6_national_aggregation_witness :
    nationalAgg [natBatchA, natBatchB] = ⟨15, 3, 12⟩
    ∧ ((breakdown (List.flatten [natBatchA, natBatchB])).map (fun pr => pr.2)).sum
        = 15 :=
  C6_national_aggregation.2.2.2 natBatchA natBatchB (by decide) (by decide)

/-- C7 counterexample: a storage failure at the summary insert leaves
the prediction file (and the raw file and datasets row) persisted with
no summary — partial state is visible, the store is not as before. -/
theorem C7_counterexample_partial_write :
    runUpload testEnv (some 3) emptyStore 1 testTable = .err stPartial3
    ∧ stPartial3.predFiles ≠ emptyStore.predFiles
    ∧ stPartial3.predictions = emptyStore.predictions
    ∧ stPartial3 ≠ emptyStore := by
  decide

/-- C7 amended: failures in classification (before any write) leave the
store unchanged, but the persistence sequence is not atomic — a failure
at the summary insert leaves the prediction table persisted with no
summary row. -/
theorem C7_amended_atomicity :
    (∀ (env : Env) (failAt : Option Nat) (st : StoreState) (hid : Nat) (df : Table)
      (e : PErr), make_predictions env df = .error e →
      runUpload env failAt st hid df = .err st)
    ∧ (∀ (env : Env) (st : StoreState) (hid : Nat) (df : Table) (preds : List String),
        make_predictions env df = .ok preds →
        ∃ st2, runUpload env (some 3) st hid df = .err st2
          ∧ st2.predFiles = st.predFiles ++ [outputArtifact df preds]
          ∧ st2.predictions = st.predictions) := by
  constructor
  · intro env failAt st hid df e h
    exact runUpload_err_of_pred_error env failAt st hid df e h
  · intro env st hid df preds h
    exact ⟨_, runUpload_failAt3 env st hid df preds h, rfl, rfl⟩

/-- C7 witness: the concrete partial write for `testTable`. -/
theorem C7_amended_atomicity_witness :
    ∃ st2, runUpload testEnv (some 3) emptyStore 1 testTable = .err st2
      ∧ st2.predFiles = emptyStore.predFiles ++ [outputArtifact testTable testLabels]
      ∧ st2.predictions = emptyStore.predictions :=
  C7_amended_atomicity.2 testEnv emptyStore 1 testTable testLabels (by decide)

/-- C8 counterexample: an upload that already carries a column named
`Prediction` classifies successfully, yet the output has no appended
column — the existing column is overwritten and its original content
does not reappear. -/
theorem C8_counterexample_prediction_column :
    make_predictions testEnv predColTable = .ok ["No Fraud"]
    ∧ (outputArtifact predColTable ["No Fraud"]).cols.length = predColTable.cols.length
    ∧ getColD (outputArtifact predColTable ["No Fraud"]) "Prediction"
        = [Val.str "No Fraud"]
    ∧ getColD predColTable "Prediction" = [Val.str "KEEP-ME"] := by
  decide

/-- C8 amended: when the input has no column named `Prediction`, the
output artifact is exactly the input rows with one appended column
holding the decoded labels — every input column and cell reappears
untouched; an input column named `Prediction` is instead overwritten.
The upload handler persists exactly this artifact. -/
theorem C8_amended_output :
    (∀ (df : Table) (preds : List String), df.WF → "Prediction" ∉ df.cols →
      preds.length = df.nRows →
      (outputArtifact df preds).cols = df.cols ++ ["Prediction"]
      ∧ (outputArtifact df preds).rows
          = List.zipWith (fun r p => r ++ [Val.str p]) df.rows preds
      ∧ getColD (outputArtifact df preds) "Prediction" = preds.map Val.str)
    ∧ (∀ (env : Env) (st : StoreState) (hid : Nat) (df : Table) (st2 : StoreState),
        runUpload env none st hid df = .ok st2 →
        ∃ preds, make_predictions env df = .ok preds
          ∧ st2.predFiles = st.predFiles ++ [outputArtifact df preds]
          ∧ preds.length = df.nRows) := by
  constructor
  · intro df preds hWF hni hlen
    have hc : ¬ df.cols.contains "Prediction" = true := fun hcc =>
      hni (by simpa [List.elem_eq_mem] using hcc)
    have hlen2 : (preds.map Val.str).length = df.nRows := by
      rw [List.length_map]
      exact hlen
    refine ⟨?_, ?_, getColD_setCol_self _ _ _ hWF hlen2⟩
    · unfold outputArtifact setCol
      rw [if_neg hc]
    · unfold outputArtifact setCol
      rw [if_neg hc]
      simp [List.zipWith_map_right]
  · intro env st hid df st2 h
    obtain ⟨preds, hp, _, hpf, _, _⟩ := runUpload_ok_elim env st hid df st2 h
    exact ⟨preds, hp, hpf, make_predictions_length env df preds hp⟩

/-- C8 witness: the appended output for `testTable`. -/
theorem C8_amended_output_witness :
    (outputArtifact testTable testLabels).cols = testTable.cols ++ ["Prediction"]
    ∧ (outputArtifact testTable testLabels).rows
        = List.zipWith (fun r p => r ++ [Val.str p]) testTable.rows testLabels
    ∧ getColD (outputArtifact testTable testLabels) "Prediction"
        = testLabels.map Val.str :=
  C8_amended_output.1 testTable testLabels (by decide) (by decide) (by decide)

/-- C9: the retrieval path normalises every stored summary count to an
integer — an integer is returned as itself, a legacy little-endian byte
sequence as the integer it encodes, an absent value as 0, and the
summary retrieval applies this to all three counts. -/
theorem C9_legacy_byte_counts :
    (∀ n : ℤ, to_int_if_bytes (.int n) = n)
    ∧ (∀ bs : List ℕ, to_int_if_bytes (.bytes bs) = (fromBytesLE bs : ℕ))
    ∧ (∀ m : ℕ, to_int_if_bytes (.bytes (Nat.digits 256 m)) = m)
    ∧ to_int_if_bytes .null = 0
    ∧ (∀ a b c : DBVal, readSummaryCounts a b c
        = (to_int_if_bytes a, to_int_if_bytes b, to_int_if_bytes c)) := by
  refine ⟨fun n => rfl, fun bs => rfl, fun m => ?_, rfl, fun a b c => rfl⟩
  simp [to_int_if_bytes, fromBytesLE, Nat.ofDigits_digits]

/-- C10: prediction leaves the caller's table object unchanged —
`preprocess_data` mutates only the copy it allocates, so after
`make_predictions` the original object still holds the raw columns, and
the upload handler persists exactly the unmodified input table as the
batch's raw data. -/
theorem C10_frame_preservation :
    (∀ (env : Env) (hp : Heap) (i : Nat), i < hp.length →
      ((make_predictions_heap env hp i).1).getD i default = hp.getD i default)
    ∧ (∀ (env : Env) (st : StoreState) (hid : Nat) (df : Table) (st2 : StoreState),
        runUpload env none st hid df = .ok st2 →
        st2.dataFiles = st.dataFiles ++ [df]) := by
  constructor
  · intro env hp i hi
    have hframe := preprocess_heap_frame env hp i hi
    unfold make_predictions_heap
    cases hpd : preprocess_data_heap env hp i with
    | mk hp2 res =>
      rw [hpd] at hframe
      cases res <;> simpa using hframe
  · intro env st hid df st2 h
    obtain ⟨preds, _, hdf, _⟩ := runUpload_ok_elim env st hid df st2 h
    exact hdf

/-- C10 witness: the caller's object survives a concrete prediction run
and is the raw table persisted. -/
theorem C10_frame_preservation_witness :
    ((make_predictions_heap testEnv [testTable] 0).1).getD 0 default
        = [testTable].getD 0 default
    ∧ stAfterOk.dataFiles = emptyStore.dataFiles ++ [testTable] :=
  ⟨C10_frame_preservation.1 testEnv [testTable] 0 (by decide),
   C10_frame_preservation.2 testEnv emptyStore 1 testTable stAfterOk (by decide)⟩

end NHIS
